import Mathlib

/-!
Shallow embedding of the littlefs testing block device (`lfs_testbd`).

The repository sources provide the interface header `src/bd/lfs_testbd.h`
(types, the bad-block behavior enumeration, the configuration structure and
the declarations of the block-device API). The paired implementation file is
not among the sources, so the operational behavior of each call is modelled
from the specification document (its Testbd Façade, Bad-Block Policy, Wear
Table and Power-Loss Governor sections), while every type, enumeration and
configuration field follows the header.

Machine integers: the header stores wear as `uint32_t` (`lfs_testbd_wear_t`)
at the interface (`lfs_testbd_setwear` takes a `uint32_t`, and
`lfs_testbd_getwear` returns the `int32_t` type `lfs_testbd_swear_t`), so
wear values entering through `set_wear` are reduced modulo 2^32 and values
leaving through `get_wear` are reinterpreted as signed 32-bit integers.
-/

namespace Testbd

/-- Bad-block behavior modes, from `enum lfs_testbd_badblock_behavior` in
`src/bd/lfs_testbd.h`. Constructor order matches the header; the header
comment notes that read-noop is deliberately not a mode. -/
inductive BadblockBehavior where
  | progError
  | eraseError
  | readError
  | progNoop
  | eraseNoop
deriving DecidableEq

/-- Device configuration, from `struct lfs_testbd_cfg` in
`src/bd/lfs_testbd.h`. The backend sub-configurations and the optional wear
buffer pointer are omitted: they are opaque to the fault-simulation core.
`erase_value` is a signed value where `-1` disables erase-value emulation;
`erase_cycles = 0` disables bad-block simulation; `power_cycles = 0`
disables power-loss simulation. -/
structure Cfg where
  read_size : Nat
  prog_size : Nat
  erase_size : Nat
  erase_count : Nat
  erase_value : Int
  erase_cycles : Nat
  badblock_behavior : BadblockBehavior
  power_cycles : Nat

/-- Modelled from the spec: the mutable device instance (the implementation
of `lfs_testbd_t`'s behavior is missing from the sources). `wear` is the
Wear Table (block index to erase-cycle counter), `power_cycles` the live
Power-Loss Governor countdown, and `disk` the logical byte content of the
backing store (block index and byte offset to byte value). -/
structure Device where
  cfg : Cfg
  wear : Nat → Nat
  power_cycles : Nat
  disk : Nat → Nat → Nat

/-- Error kinds, from the spec's error handling design: `invalidArg` for
caller contract violations, `ioError` for backend or simulated
program/erase faults, `corruptData` for a simulated read fault. -/
inductive BdErr where
  | invalidArg
  | ioError
  | corruptData
deriving DecidableEq

/-- Result code of a call that returns control to the caller. -/
inductive Status where
  | ok
  | err (e : BdErr)
deriving DecidableEq

/-- Modelled from the spec: the outcome of a state-changing call. `killed`
models the power-loss forced process termination: the call never returns,
and the carried device state is the state at the moment the process dies,
the write it just performed included. -/
inductive Outcome where
  | ret (r : Status) (d : Device)
  | killed (d : Device)

/-- The device state carried by an outcome. -/
def Outcome.device : Outcome → Device
  | .ret _ d => d
  | .killed d => d

/-- The result code of an outcome, or `none` when the process was killed
and no code was ever observed by the caller. -/
def Outcome.status : Outcome → Option Status
  | .ret r _ => some r
  | .killed _ => none

/-- A block is bad once bad-block simulation is enabled
(`erase_cycles != 0`) and its wear counter reached the threshold. -/
def isBad (d : Device) (b : Nat) : Prop :=
  d.cfg.erase_cycles ≠ 0 ∧ d.cfg.erase_cycles ≤ d.wear b

instance (d : Device) (b : Nat) : Decidable (isBad d b) :=
  inferInstanceAs (Decidable (d.cfg.erase_cycles ≠ 0 ∧ d.cfg.erase_cycles ≤ d.wear b))

/-- Modelled from the spec: caller contract for `lfs_testbd_read` — offset
and size aligned to `read_size`, the access within the erase size, and the
block index in range. -/
def readPre (d : Device) (b off size : Nat) : Prop :=
  b < d.cfg.erase_count ∧ off % d.cfg.read_size = 0 ∧
    size % d.cfg.read_size = 0 ∧ off + size ≤ d.cfg.erase_size

instance (d : Device) (b off size : Nat) : Decidable (readPre d b off size) :=
  inferInstanceAs (Decidable (b < d.cfg.erase_count ∧ off % d.cfg.read_size = 0 ∧
    size % d.cfg.read_size = 0 ∧ off + size ≤ d.cfg.erase_size))

/-- Modelled from the spec: caller contract for `lfs_testbd_prog` — offset
and size aligned to `prog_size`, the access within the erase size, and the
block index in range. -/
def progPre (d : Device) (b off size : Nat) : Prop :=
  b < d.cfg.erase_count ∧ off % d.cfg.prog_size = 0 ∧
    size % d.cfg.prog_size = 0 ∧ off + size ≤ d.cfg.erase_size

instance (d : Device) (b off size : Nat) : Decidable (progPre d b off size) :=
  inferInstanceAs (Decidable (b < d.cfg.erase_count ∧ off % d.cfg.prog_size = 0 ∧
    size % d.cfg.prog_size = 0 ∧ off + size ≤ d.cfg.erase_size))

/-- Modelled from the spec: the Power-Loss Governor step, applied after a
real (non-noop, non-failing) write has been performed. A live countdown of
0 means power-loss simulation is disabled; otherwise the countdown is
decremented and, on reaching zero, the process is forcibly terminated
after the write but before the call returns. -/
def powerStep (d : Device) : Outcome :=
  if d.power_cycles = 0 then .ret .ok d
  else if d.power_cycles = 1 then .killed { d with power_cycles := 0 }
  else .ret .ok { d with power_cycles := d.power_cycles - 1 }

/-- Modelled from the spec: the state change of a real program — the bytes
of `buf` overwrite the block content at `off`. -/
def progWrite (d : Device) (b off : Nat) (buf : List Nat) : Device :=
  { d with disk := fun bi p =>
      if bi = b ∧ off ≤ p ∧ p < off + buf.length then buf.getD (p - off) 0
      else d.disk bi p }

/-- Modelled from the spec: the state change of a real erase — the block's
wear counter is incremented by one and, when erase-value emulation is
enabled (`erase_value` is not the `-1` sentinel), the block's content is
logically filled with the configured fill byte. -/
def eraseWrite (d : Device) (b : Nat) : Device :=
  { d with
    wear := fun bi => if bi = b then d.wear b + 1 else d.wear bi,
    disk :=
      if d.cfg.erase_value = -1 then d.disk
      else fun bi p => if bi = b then d.cfg.erase_value.toNat else d.disk bi p }

/-- Modelled from the spec: `lfs_testbd_read`. Validates the caller
contract, then consults the Bad-Block Policy: on a bad block in read-error
mode the call fails with `corruptData`; otherwise it delegates and returns
the block content. Read never mutates wear or power-cycle state, so the
device is returned unchanged. -/
def lfs_testbd_read (d : Device) (b off size : Nat) :
    Except BdErr (List Nat) × Device :=
  if ¬ readPre d b off size then (.error .invalidArg, d)
  else if isBad d b ∧ d.cfg.badblock_behavior = .readError then
    (.error .corruptData, d)
  else (.ok ((List.range size).map fun i => d.disk b (off + i)), d)

/-- Modelled from the spec: `lfs_testbd_prog`. Validates the caller
contract, then consults the Bad-Block Policy: on a bad block, prog-error
fails with `ioError` performing no write, prog-noop returns success
performing no write, and any other mode delegates normally; a real write
then drives the Power-Loss Governor. -/
def lfs_testbd_prog (d : Device) (b off : Nat) (buf : List Nat) : Outcome :=
  if ¬ progPre d b off buf.length then .ret (.err .invalidArg) d
  else if isBad d b ∧ d.cfg.badblock_behavior = .progError then
    .ret (.err .ioError) d
  else if isBad d b ∧ d.cfg.badblock_behavior = .progNoop then .ret .ok d
  else powerStep (progWrite d b off buf)

/-- Modelled from the spec: `lfs_testbd_erase`. Validates the block index,
then consults the Bad-Block Policy: on a bad block, erase-error fails with
`ioError` leaving wear unmodified, erase-noop returns success without
incrementing wear and without filling the erase pattern, and any other
mode delegates normally; a real erase then drives the Power-Loss
Governor. -/
def lfs_testbd_erase (d : Device) (b : Nat) : Outcome :=
  if ¬ b < d.cfg.erase_count then .ret (.err .invalidArg) d
  else if isBad d b ∧ d.cfg.badblock_behavior = .eraseError then
    .ret (.err .ioError) d
  else if isBad d b ∧ d.cfg.badblock_behavior = .eraseNoop then .ret .ok d
  else powerStep (eraseWrite d b)

/-- Modelled from the spec: `lfs_testbd_sync` delegates to the backend and
does not interact with wear, bad-block policy, or the power-loss
countdown. -/
def lfs_testbd_sync (d : Device) : Outcome :=
  .ret .ok d

/-- Reduction of a natural number to the `uint32_t` range. -/
def mod32 (v : Nat) : Nat := v % 2 ^ 32

/-- Reinterpretation of an unsigned wear counter as the signed 32-bit
return type `lfs_testbd_swear_t` of `src/bd/lfs_testbd.h`. -/
def toInt32 (v : Nat) : Int :=
  if mod32 v < 2 ^ 31 then (mod32 v : Int) else (mod32 v : Int) - 2 ^ 32

/-- Modelled from the spec: the negative sentinel `get_wear` returns for an
out-of-range block index (the littlefs invalid-argument error code). -/
def invalSentinel : Int := -22

/-- Modelled from the spec: `lfs_testbd_getwear` — returns the block's
erase-cycle count as a signed 32-bit value, or a negative sentinel for an
out-of-range block index. Pure, no side effects. -/
def lfs_testbd_getwear (d : Device) (b : Nat) : Int :=
  if b < d.cfg.erase_count then toInt32 (d.wear b) else invalSentinel

/-- Modelled from the spec: `lfs_testbd_setwear` — overwrites the block's
wear counter (a `uint32_t` at the interface), or fails with an
invalid-argument condition for an out-of-range block index. -/
def lfs_testbd_setwear (d : Device) (b v : Nat) : Status × Device :=
  if b < d.cfg.erase_count then
    (.ok, { d with wear := fun bi => if bi = b then mod32 v else d.wear bi })
  else (.err .invalidArg, d)

/-- `n` consecutive erase calls on block `b`, stopping at the first call
that does not return success (error return or forced termination). -/
def eraseRep (d : Device) (b : Nat) : Nat → Outcome
  | 0 => .ret .ok d
  | n + 1 =>
    match lfs_testbd_erase d b with
    | .ret .ok d1 => eraseRep d1 b n
    | out => out

/-- Modelled from the spec: a freshly created device — the live power-cycle
countdown is initialized from the configuration, the wear table starts at
zero, and the backing store holds `disk0`. -/
def freshDevice (cfg : Cfg) (disk0 : Nat → Nat → Nat) : Device :=
  { cfg := cfg, wear := fun _ => 0, power_cycles := cfg.power_cycles, disk := disk0 }

/-- Concrete geometry from the spec's scenario section:
`read_size=16, prog_size=16, erase_size=512, erase_count=4`,
`erase_cycles=2`, power-loss disabled. -/
def cfg1 : Cfg := ⟨16, 16, 512, 4, 255, 2, .progNoop, 0⟩

/-- A configuration whose erase-cycle threshold exceeds the signed 32-bit
range of `lfs_testbd_swear_t`. -/
def cfgBig : Cfg := ⟨16, 16, 512, 1, 255, 2 ^ 31, .progNoop, 0⟩

/-- A device one write away from simulated power loss. -/
def devKill : Device := ⟨⟨16, 16, 512, 1, 255, 0, .progNoop, 1⟩, fun _ => 0, 1, fun _ _ => 0⟩

/-- A device whose blocks are all bad (wear 2 at threshold 2), with the
given bad-block behavior and erase-pattern content `255`. -/
def devBad (beh : BadblockBehavior) : Device :=
  ⟨⟨16, 16, 512, 4, 255, 2, beh, 0⟩, fun _ => 2, 0, fun _ _ => 255⟩

/-- A fresh device with all blocks good. -/
def devGood : Device := ⟨⟨16, 16, 512, 4, 255, 5, .progError, 0⟩, fun _ => 0, 0, fun _ _ => 0⟩

/-! Helper lemmas about the single-step behavior of the operations. -/

lemma eraseWrite_cfg (d : Device) (b : Nat) : (eraseWrite d b).cfg = d.cfg := rfl

lemma eraseWrite_power (d : Device) (b : Nat) :
    (eraseWrite d b).power_cycles = d.power_cycles := rfl

lemma eraseWrite_wear_self (d : Device) (b : Nat) :
    (eraseWrite d b).wear b = d.wear b + 1 := by
  simp [eraseWrite]

lemma progWrite_cfg (d : Device) (b off : Nat) (buf : List Nat) :
    (progWrite d b off buf).cfg = d.cfg := rfl

lemma progWrite_wear (d : Device) (b off : Nat) (buf : List Nat) :
    (progWrite d b off buf).wear = d.wear := rfl

lemma progWrite_power (d : Device) (b off : Nat) (buf : List Nat) :
    (progWrite d b off buf).power_cycles = d.power_cycles := rfl

lemma powerStep_zero (d : Device) (h : d.power_cycles = 0) :
    powerStep d = .ret .ok d := by
  simp [powerStep, h]

lemma powerStep_one (d : Device) (h : d.power_cycles = 1) :
    powerStep d = .killed { d with power_cycles := 0 } := by
  simp [powerStep, h]

lemma powerStep_many (d : Device) (n : Nat) (h : d.power_cycles = n + 2) :
    powerStep d = .ret .ok { d with power_cycles := n + 1 } := by
  simp [powerStep, h]

lemma erase_step (d : Device) (b : Nat) (hb : b < d.cfg.erase_count)
    (hgood : ¬ isBad d b) :
    lfs_testbd_erase d b = powerStep (eraseWrite d b) := by
  simp [lfs_testbd_erase, hb, hgood]

lemma prog_step (d : Device) (b off : Nat) (buf : List Nat)
    (hpre : progPre d b off buf.length) (hgood : ¬ isBad d b) :
    lfs_testbd_prog d b off buf = powerStep (progWrite d b off buf) := by
  simp [lfs_testbd_prog, hpre, hgood]

/-- Iterated successful erases with power-loss simulation disabled: all `n`
calls return success and the wear counter advances by `n`. -/
lemma eraseRep_ok (b : Nat) :
    ∀ (n : Nat) (d : Device), b < d.cfg.erase_count → d.power_cycles = 0 →
      d.wear b + n ≤ d.cfg.erase_cycles ∨ d.cfg.erase_cycles = 0 →
      ∃ d1, eraseRep d b n = .ret .ok d1 ∧ d1.cfg = d.cfg ∧
        d1.power_cycles = 0 ∧ d1.wear b = d.wear b + n := by
  intro n
  induction n with
  | zero => exact fun d hb hpc _ => ⟨d, rfl, rfl, hpc, rfl⟩
  | succ n ih =>
    intro d hb hpc hn
    have hgood : ¬ isBad d b := by
      rintro ⟨h1, h2⟩
      rcases hn with hn | hn
      · omega
      · exact h1 hn
    have h1 : lfs_testbd_erase d b = .ret .ok (eraseWrite d b) := by
      rw [erase_step d b hb hgood, powerStep_zero]
      rw [eraseWrite_power]; exact hpc
    have h2 : eraseRep d b (n + 1) = eraseRep (eraseWrite d b) b n := by
      simp [eraseRep, h1]
    obtain ⟨d1, hrep, hcfg, hp, hw⟩ := ih (eraseWrite d b)
      (by rw [eraseWrite_cfg]; exact hb)
      (by rw [eraseWrite_power]; exact hpc)
      (by rw [eraseWrite_cfg, eraseWrite_wear_self]
          rcases hn with hn | hn
          · left; omega
          · right; exact hn)
    refine ⟨d1, h2 ▸ hrep, hcfg.trans (eraseWrite_cfg d b), hp, ?_⟩
    rw [hw, eraseWrite_wear_self]
    omega

/-- Iterated erases with bad-block simulation disabled and a live power
countdown larger than the number of calls: all calls return and the
countdown drops by one per call. -/
lemma eraseRep_power (b : Nat) :
    ∀ (k : Nat) (d : Device), b < d.cfg.erase_count →
      d.cfg.erase_cycles = 0 → k < d.power_cycles →
      ∃ d1, eraseRep d b k = .ret .ok d1 ∧ d1.cfg = d.cfg ∧
        d1.power_cycles = d.power_cycles - k ∧ d1.wear b = d.wear b + k := by
  intro k
  induction k with
  | zero => exact fun d hb hc hk => ⟨d, rfl, rfl, by omega, rfl⟩
  | succ k ih =>
    intro d hb hc hk
    have hgood : ¬ isBad d b := fun h => h.1 hc
    obtain ⟨m, hm⟩ : ∃ m, d.power_cycles = m + 2 := ⟨d.power_cycles - 2, by omega⟩
    have h1 : lfs_testbd_erase d b =
        .ret .ok { eraseWrite d b with power_cycles := m + 1 } := by
      rw [erase_step d b hb hgood, powerStep_many _ m]
      rw [eraseWrite_power]; exact hm
    have h2 : eraseRep d b (k + 1) =
        eraseRep { eraseWrite d b with power_cycles := m + 1 } b k := by
      simp [eraseRep, h1]
    obtain ⟨d1, hrep, hcfg, hp, hw⟩ :=
      ih { eraseWrite d b with power_cycles := m + 1 }
        (by exact hb) (by exact hc) (by simpa using by omega)
    refine ⟨d1, h2 ▸ hrep, hcfg, ?_, ?_⟩
    · rw [hp]; simp; omega
    · rw [hw]; have : ({ eraseWrite d b with power_cycles := m + 1 } : Device).wear b =
        d.wear b + 1 := eraseWrite_wear_self d b
      omega

/-- Iterated erases with bad-block simulation disabled and a live power
countdown equal to the number of calls: the last call performs its write
and then forcibly terminates the process. -/
lemma eraseRep_kill (b : Nat) :
    ∀ (k : Nat) (d : Device), b < d.cfg.erase_count →
      d.cfg.erase_cycles = 0 → d.power_cycles = k → 0 < k →
      ∃ d1, eraseRep d b k = .killed d1 ∧ d1.power_cycles = 0 ∧
        d1.wear b = d.wear b + k := by
  intro k
  induction k with
  | zero => exact fun d _ _ _ h => absurd h (by omega)
  | succ k ih =>
    intro d hb hc hpc _
    have hgood : ¬ isBad d b := fun h => h.1 hc
    cases k with
    | zero =>
      have h1 : lfs_testbd_erase d b =
          .killed { eraseWrite d b with power_cycles := 0 } := by
        rw [erase_step d b hb hgood, powerStep_one]
        rw [eraseWrite_power]; exact hpc
      refine ⟨{ eraseWrite d b with power_cycles := 0 }, ?_, rfl, ?_⟩
      · simp [eraseRep, h1]
      · have : ({ eraseWrite d b with power_cycles := 0 } : Device).wear b =
          d.wear b + 1 := eraseWrite_wear_self d b
        omega
    | succ m =>
      have h1 : lfs_testbd_erase d b =
          .ret .ok { eraseWrite d b with power_cycles := m + 1 } := by
        rw [erase_step d b hb hgood, powerStep_many _ m]
        rw [eraseWrite_power]; exact hpc
      have h2 : eraseRep d b (m + 1 + 1) =
          eraseRep { eraseWrite d b with power_cycles := m + 1 } b (m + 1) := by
        simp [eraseRep, h1]
      obtain ⟨d1, hrep, hp, hw⟩ :=
        ih { eraseWrite d b with power_cycles := m + 1 }
          (by exact hb) (by exact hc) rfl (by omega)
      refine ⟨d1, h2 ▸ hrep, hp, ?_⟩
      rw [hw]
      have : ({ eraseWrite d b with power_cycles := m + 1 } : Device).wear b =
          d.wear b + 1 := eraseWrite_wear_self d b
      omega

/-- Every branch of a read returns the device unchanged. -/
lemma read_snd (d : Device) (b off size : Nat) :
    (lfs_testbd_read d b off size).2 = d := by
  unfold lfs_testbd_read
  split_ifs <;> rfl

/-- The power-loss step only touches the live countdown. -/
lemma powerStep_device_wear (d : Device) :
    ((powerStep d).device).wear = d.wear := by
  unfold powerStep Outcome.device
  split_ifs <;> rfl

lemma powerStep_device_cfg (d : Device) :
    ((powerStep d).device).cfg = d.cfg := by
  unfold powerStep Outcome.device
  split_ifs <;> rfl

/-- A program never changes the wear table, whatever its outcome. -/
lemma prog_device_wear (d : Device) (b off : Nat) (buf : List Nat) :
    ((lfs_testbd_prog d b off buf).device).wear = d.wear := by
  unfold lfs_testbd_prog
  split_ifs <;> first
    | rfl
    | rw [powerStep_device_wear, progWrite_wear]

lemma prog_device_cfg (d : Device) (b off : Nat) (buf : List Nat) :
    ((lfs_testbd_prog d b off buf).device).cfg = d.cfg := by
  unfold lfs_testbd_prog
  split_ifs <;> first
    | rfl
    | rw [powerStep_device_cfg, progWrite_cfg]

/-- An erase never lowers any wear counter, whatever its outcome. -/
lemma erase_device_wear_ge (d : Device) (b bi : Nat) :
    d.wear bi ≤ ((lfs_testbd_erase d b).device).wear bi := by
  unfold lfs_testbd_erase
  split_ifs <;> first
    | exact le_refl _
    | · rw [powerStep_device_wear]
        by_cases hbi : bi = b
        · subst hbi; rw [eraseWrite_wear_self]; omega
        · simp [eraseWrite, hbi]

lemma erase_device_cfg (d : Device) (b : Nat) :
    ((lfs_testbd_erase d b).device).cfg = d.cfg := by
  unfold lfs_testbd_erase
  split_ifs <;> first
    | rfl
    | rw [powerStep_device_cfg, eraseWrite_cfg]

/-- The result status of a program on a bad block is fully determined by
the configured bad-block behavior. -/
lemma prog_status_of_bad (d : Device) (b off : Nat) (buf : List Nat)
    (hpre : progPre d b off buf.length) (hbad : isBad d b)
    (hpc : d.power_cycles = 0) :
    (lfs_testbd_prog d b off buf).status =
      (if d.cfg.badblock_behavior = .progError then some (.err .ioError)
       else some .ok) := by
  cases h : d.cfg.badblock_behavior <;>
    simp [lfs_testbd_prog, hpre, hbad, h, powerStep, progWrite, hpc,
      Outcome.status]

/-- The result status of an erase on a bad block is fully determined by
the configured bad-block behavior. -/
lemma erase_status_of_bad (d : Device) (b : Nat)
    (hb : b < d.cfg.erase_count) (hbad : isBad d b)
    (hpc : d.power_cycles = 0) :
    (lfs_testbd_erase d b).status =
      (if d.cfg.badblock_behavior = .eraseError then some (.err .ioError)
       else some .ok) := by
  cases h : d.cfg.badblock_behavior <;>
    simp [lfs_testbd_erase, hb, hbad, h, powerStep, eraseWrite, hpc,
      Outcome.status]

/-- A successful wear overwrite returns the updated device. -/
lemma setwear_ok (d : Device) (b v : Nat) (hb : b < d.cfg.erase_count) :
    lfs_testbd_setwear d b v =
      (.ok, { d with wear := fun bi => if bi = b then mod32 v
                                       else d.wear bi }) := by
  simp [lfs_testbd_setwear, hb]

lemma setwear_cfg (d : Device) (b v : Nat) :
    ((lfs_testbd_setwear d b v).2).cfg = d.cfg := by
  unfold lfs_testbd_setwear
  split_ifs <;> rfl

lemma setwear_power (d : Device) (b v : Nat) :
    ((lfs_testbd_setwear d b v).2).power_cycles = d.power_cycles := by
  unfold lfs_testbd_setwear
  split_ifs <;> rfl

lemma setwear_wear_self (d : Device) (b v : Nat)
    (hb : b < d.cfg.erase_count) :
    ((lfs_testbd_setwear d b v).2).wear b = mod32 v := by
  simp [lfs_testbd_setwear, hb]

/-! Claim theorems. -/

/-- C1 (amended): on a freshly created device with `erase_cycles != 0` and
power-loss simulation disabled, `n` erases of a valid block `b` with
`n <= erase_cycles` all succeed (non-noop, non-failing), after which
`get_wear(b)` returns exactly `n` provided `n < 2^31` (for larger `n` the
value is reinterpreted as a signed 32-bit integer), and `b` is bad exactly
when this counter has reached the configured `erase_cycles` threshold. -/
theorem C1_wear_counting (cfg : Cfg) (disk0 : Nat → Nat → Nat) (b n : Nat)
    (hb : b < cfg.erase_count) (hc : cfg.erase_cycles ≠ 0)
    (hpc : cfg.power_cycles = 0) (hn : n ≤ cfg.erase_cycles)
    (hsm : n < 2 ^ 31) :
    ∃ d1, eraseRep (freshDevice cfg disk0) b n = .ret .ok d1 ∧
      lfs_testbd_getwear d1 b = n ∧
      (isBad d1 b ↔ n = cfg.erase_cycles) := by
  obtain ⟨d1, hrep, hcfg, hp, hw⟩ :=
    eraseRep_ok b n (freshDevice cfg disk0) hb hpc
      (Or.inl (by simpa [freshDevice] using hn))
  have hcfg1 : d1.cfg = cfg := hcfg
  have hw1 : d1.wear b = n := by simpa [freshDevice] using hw
  have hm : mod32 n = n := Nat.mod_eq_of_lt (lt_trans hsm (by norm_num))
  refine ⟨d1, hrep, ?_, ?_⟩
  · rw [lfs_testbd_getwear, if_pos (by rw [hcfg1]; exact hb), hw1, toInt32,
      hm, if_pos hsm]
  · unfold isBad
    rw [hcfg1, hw1]
    constructor
    · rintro ⟨-, h2⟩; omega
    · intro h; exact ⟨hc, by omega⟩

/-- C1 witness: instantiates the amended claim on the spec's scenario
geometry with two erases. -/
theorem C1_wear_counting_witness :
    ∃ d1, eraseRep (freshDevice cfg1 (fun _ _ => 0)) 0 2 = .ret .ok d1 ∧
      lfs_testbd_getwear d1 0 = 2 ∧ (isBad d1 0 ↔ 2 = cfg1.erase_cycles) :=
  C1_wear_counting cfg1 (fun _ _ => 0) 0 2 (by decide) (by decide) rfl
    (by decide) (by decide)

/-- C1 counterexample: with `erase_cycles = 2^31`, after `2^31` successful
non-noop erases of block 0 on a fresh device, `get_wear` does not return
the erase count `2^31`; it returns the negative value `-2^31`, because the
`uint32_t` wear counter is reinterpreted as the signed 32-bit return type
`lfs_testbd_swear_t`. -/
theorem C1_counterexample :
    ∃ d1, eraseRep (freshDevice cfgBig (fun _ _ => 0)) 0 (2 ^ 31) =
        .ret .ok d1 ∧
      lfs_testbd_getwear d1 0 ≠ ((2 ^ 31 : Nat) : Int) ∧
      lfs_testbd_getwear d1 0 = -(2 ^ 31 : Int) := by
  obtain ⟨d1, hrep, hcfg, hp, hw⟩ :=
    eraseRep_ok 0 (2 ^ 31) (freshDevice cfgBig (fun _ _ => 0))
      (by decide) rfl (Or.inl (by simp [freshDevice, cfgBig]))
  have hcfg1 : d1.cfg = cfgBig := hcfg
  have hw1 : d1.wear 0 = 2 ^ 31 := by simpa [freshDevice] using hw
  have hm : mod32 (2 ^ 31) = 2 ^ 31 := Nat.mod_eq_of_lt (by norm_num)
  have hgw : lfs_testbd_getwear d1 0 = -(2 ^ 31 : Int) := by
    rw [lfs_testbd_getwear, if_pos (by rw [hcfg1]; decide), hw1, toInt32, hm,
      if_neg (lt_irrefl _)]
    norm_num
  exact ⟨d1, hrep, by rw [hgw]; norm_num, hgw⟩

/-- C2: with a live power countdown of `k > 0`, every real (non-noop,
non-failing) erase or program decrements the countdown; a call made with
countdown 1 performs its write and then forcibly terminates the process
before returning, a call made with a larger countdown returns with the
countdown still positive, and a countdown of 0 disables power-loss
simulation; iterating erases from a fresh device with `power_cycles = k`,
the first `k - 1` calls return and the `k`-th performs its write (wear
reaches `k`) and kills the process. -/
theorem C2_power_loss_governor :
    (∀ d b, b < d.cfg.erase_count → ¬ isBad d b → d.power_cycles = 0 →
      lfs_testbd_erase d b = .ret .ok (eraseWrite d b)) ∧
    (∀ d b off buf, progPre d b off (List.length buf) → ¬ isBad d b →
      d.power_cycles = 0 →
      lfs_testbd_prog d b off buf = .ret .ok (progWrite d b off buf)) ∧
    (∀ d b, b < d.cfg.erase_count → ¬ isBad d b → d.power_cycles = 1 →
      lfs_testbd_erase d b =
        .killed { eraseWrite d b with power_cycles := 0 }) ∧
    (∀ d b off buf, progPre d b off (List.length buf) → ¬ isBad d b →
      d.power_cycles = 1 →
      lfs_testbd_prog d b off buf =
        .killed { progWrite d b off buf with power_cycles := 0 }) ∧
    (∀ d b n, b < d.cfg.erase_count → ¬ isBad d b →
      d.power_cycles = n + 2 →
      lfs_testbd_erase d b =
        .ret .ok { eraseWrite d b with power_cycles := n + 1 }) ∧
    (∀ d b off buf n, progPre d b off (List.length buf) → ¬ isBad d b →
      d.power_cycles = n + 2 →
      lfs_testbd_prog d b off buf =
        .ret .ok { progWrite d b off buf with power_cycles := n + 1 }) ∧
    (∀ cfg disk0 b k, b < Cfg.erase_count cfg → Cfg.erase_cycles cfg = 0 →
      Cfg.power_cycles cfg = k → 0 < k →
      (∀ j, j < k →
        ∃ d1, eraseRep (freshDevice cfg disk0) b j = .ret .ok d1 ∧
          d1.power_cycles = k - j ∧ 0 < d1.power_cycles) ∧
      ∃ d1, eraseRep (freshDevice cfg disk0) b k = .killed d1 ∧
        d1.power_cycles = 0 ∧ d1.wear b = k) := by
  refine ⟨?_, ?_, ?_, ?_, ?_, ?_, ?_⟩
  · intro d b hb hgood hpc
    rw [erase_step d b hb hgood, powerStep_zero]
    rw [eraseWrite_power]; exact hpc
  · intro d b off buf hpre hgood hpc
    rw [prog_step d b off buf hpre hgood, powerStep_zero]
    rw [progWrite_power]; exact hpc
  · intro d b hb hgood hpc
    rw [erase_step d b hb hgood, powerStep_one]
    rw [eraseWrite_power]; exact hpc
  · intro d b off buf hpre hgood hpc
    rw [prog_step d b off buf hpre hgood, powerStep_one]
    rw [progWrite_power]; exact hpc
  · intro d b n hb hgood hpc
    rw [erase_step d b hb hgood, powerStep_many _ n]
    rw [eraseWrite_power]; exact hpc
  · intro d b off buf n hpre hgood hpc
    rw [prog_step d b off buf hpre hgood, powerStep_many _ n]
    rw [progWrite_power]; exact hpc
  · intro cfg disk0 b k hb hc hpc hk
    constructor
    · intro j hj
      obtain ⟨d1, hrep, hcfg, hp, hw⟩ :=
        eraseRep_power b j (freshDevice cfg disk0) hb hc
          (by simpa [freshDevice] using hpc ▸ hj)
      have hp1 : d1.power_cycles = k - j := by
        rw [hp]; simp [freshDevice, hpc]
      exact ⟨d1, hrep, hp1, by omega⟩
    · obtain ⟨d1, hrep, hp, hw⟩ :=
        eraseRep_kill b k (freshDevice cfg disk0) hb hc
          (by simpa [freshDevice] using hpc) hk
      exact ⟨d1, hrep, hp, by simpa [freshDevice] using hw⟩

/-- C2 witness: a device one write from power loss performs the erase and
is killed rather than returning. -/
theorem C2_power_loss_governor_witness :
    lfs_testbd_erase devKill 0 =
      .killed { eraseWrite devKill 0 with power_cycles := 0 } :=
  C2_power_loss_governor.2.2.1 devKill 0 (by decide) (by decide) rfl

/-- C3: wear counters are never decreased by read, program, erase or sync
(read and sync leave them untouched, program preserves them, erase only
increases them); once a block is bad it stays bad across every read,
program, erase and sync; and only `set_wear` can overwrite (in particular
lower) a block's wear counter. -/
theorem C3_wear_monotone_bad_persistent :
    (∀ d b off size bi,
      ((lfs_testbd_read d b off size).2).wear bi = d.wear bi) ∧
    (∀ d b off buf bi,
      d.wear bi ≤ ((lfs_testbd_prog d b off buf).device).wear bi) ∧
    (∀ d b bi, d.wear bi ≤ ((lfs_testbd_erase d b).device).wear bi) ∧
    (∀ d bi, ((lfs_testbd_sync d).device).wear bi = d.wear bi) ∧
    (∀ d b off size bi, isBad d bi →
      isBad ((lfs_testbd_read d b off size).2) bi) ∧
    (∀ d b off buf bi, isBad d bi →
      isBad ((lfs_testbd_prog d b off buf).device) bi) ∧
    (∀ d b bi, isBad d bi → isBad ((lfs_testbd_erase d b).device) bi) ∧
    (∀ d bi, isBad d bi → isBad ((lfs_testbd_sync d).device) bi) ∧
    (∀ d b v, b < d.cfg.erase_count →
      ((lfs_testbd_setwear d b v).2).wear b = mod32 v) := by
  refine ⟨?_, ?_, ?_, ?_, ?_, ?_, ?_, ?_, ?_⟩
  · intro d b off size bi; rw [read_snd]
  · intro d b off buf bi; rw [prog_device_wear]
  · intro d b bi; exact erase_device_wear_ge d b bi
  · intro d bi; rfl
  · intro d b off size bi hbad; rw [read_snd]; exact hbad
  · intro d b off buf bi hbad
    obtain ⟨h1, h2⟩ := hbad
    refine ⟨?_, ?_⟩
    · rw [prog_device_cfg]; exact h1
    · rw [prog_device_cfg, prog_device_wear]; exact h2
  · intro d b bi hbad
    obtain ⟨h1, h2⟩ := hbad
    refine ⟨?_, ?_⟩
    · rw [erase_device_cfg]; exact h1
    · rw [erase_device_cfg]
      exact le_trans h2 (erase_device_wear_ge d b bi)
  · intro d bi hbad; exact hbad
  · intro d b v hb
    simp [lfs_testbd_setwear, hb]

/-- C3 witness: a bad block of a concrete device stays bad across a
read. -/
theorem C3_wear_monotone_bad_persistent_witness :
    isBad ((lfs_testbd_read (devBad .progError) 0 0 16).2) 0 :=
  C3_wear_monotone_bad_persistent.2.2.2.2.1 (devBad .progError) 0 0 16 0
    (by decide)

/-- C4: on a bad block, with `badblock_behavior = prog-error` a (validly
aligned) program fails with an `ioError` and returns the device completely
unchanged (no write to the backing store), and with
`badblock_behavior = erase-error` an erase of a valid block fails with an
`ioError` and returns the device completely unchanged (wear and content
unmodified). -/
theorem C4_error_modes (d : Device) (b off : Nat) (buf : List Nat)
    (hbad : isBad d b) :
    (d.cfg.badblock_behavior = .progError → progPre d b off buf.length →
      lfs_testbd_prog d b off buf = .ret (.err .ioError) d) ∧
    (d.cfg.badblock_behavior = .eraseError → b < d.cfg.erase_count →
      lfs_testbd_erase d b = .ret (.err .ioError) d) := by
  constructor
  · intro hbeh hpre
    simp [lfs_testbd_prog, hpre, hbad, hbeh]
  · intro hbeh hb
    simp [lfs_testbd_erase, hb, hbad, hbeh]

/-- C4 witness: a 16-byte aligned program on a bad block of a concrete
prog-error device fails with an `ioError` leaving the device unchanged. -/
theorem C4_error_modes_witness :
    lfs_testbd_prog (devBad .progError) 0 0 (List.replicate 16 1) =
      .ret (.err .ioError) (devBad .progError) :=
  (C4_error_modes (devBad .progError) 0 0 (List.replicate 16 1)
    (by decide)).1 rfl (by decide)

/-- C5: on a bad block, with `badblock_behavior = prog-noop` a (validly
aligned) program returns success while leaving the device completely
unchanged, so a subsequent read of the programmed offset on a freshly
erased block returns the erase-pattern bytes rather than the written data;
and with `badblock_behavior = erase-noop` an erase of a valid block
returns success without incrementing wear and without filling the erase
pattern (device unchanged). -/
theorem C5_noop_modes (d : Device) (b off : Nat) (buf : List Nat)
    (hbad : isBad d b) :
    (d.cfg.badblock_behavior = .progNoop → progPre d b off buf.length →
      lfs_testbd_prog d b off buf = .ret .ok d) ∧
    (d.cfg.badblock_behavior = .progNoop → readPre d b off buf.length →
      (∀ p, d.disk b p = d.cfg.erase_value.toNat) →
      (lfs_testbd_read d b off buf.length).1 =
        .ok (List.replicate buf.length d.cfg.erase_value.toNat)) ∧
    (d.cfg.badblock_behavior = .eraseNoop → b < d.cfg.erase_count →
      lfs_testbd_erase d b = .ret .ok d) := by
  refine ⟨?_, ?_, ?_⟩
  · intro hbeh hpre
    simp [lfs_testbd_prog, hpre, hbad, hbeh]
  · intro hbeh hpre hfill
    have hnotread : ¬ (isBad d b ∧ d.cfg.badblock_behavior = .readError) := by
      rintro ⟨-, h⟩; rw [hbeh] at h; exact absurd h (by simp)
    rw [lfs_testbd_read, if_neg (by simp [hpre]), if_neg hnotread]
    have : ((List.range buf.length).map fun i => d.disk b (off + i)) =
        List.replicate buf.length d.cfg.erase_value.toNat := by
      rw [List.eq_replicate_iff]
      constructor
      · simp
      · intro x hx
        obtain ⟨i, -, hix⟩ := List.mem_map.1 hx
        rw [← hix, hfill]
    rw [this]
  · intro hbeh hb
    simp [lfs_testbd_erase, hb, hbad, hbeh]

/-- C5 witness: on a concrete prog-noop device whose bad block 0 holds the
erase pattern 255, reading 16 bytes at offset 0 returns the erase-pattern
bytes (the spec's scenario, after the silently dropped program). -/
theorem C5_noop_modes_witness :
    (lfs_testbd_read (devBad .progNoop) 0 0
        (List.replicate 16 1).length).1 =
      .ok (List.replicate (List.replicate 16 1).length
        ((devBad .progNoop).cfg.erase_value.toNat)) :=
  (C5_noop_modes (devBad .progNoop) 0 0 (List.replicate 16 1)
    (by decide)).2.1 rfl (by decide) (fun _ => rfl)

/-- C6: on a bad block with `badblock_behavior = read-error`, a (validly
aligned) read fails with a `corruptData` error; a read never mutates the
device state, so repeated reads of the same block, offset and size with
unchanged wear state return the identical result on every call; and the
bad-block behavior mode space contains no read-noop passthrough mode —
its only members are prog-error, erase-error, read-error, prog-noop and
erase-noop. -/
theorem C6_read_error_determinism :
    (∀ d b off size, isBad d b → Cfg.badblock_behavior d.cfg = .readError →
      readPre d b off size →
      (lfs_testbd_read d b off size).1 = .error .corruptData) ∧
    (∀ d b off size, (lfs_testbd_read d b off size).2 = d) ∧
    (∀ d b off size,
      lfs_testbd_read ((lfs_testbd_read d b off size).2) b off size =
        lfs_testbd_read d b off size) ∧
    (∀ m : BadblockBehavior, m = .progError ∨ m = .eraseError ∨
      m = .readError ∨ m = .progNoop ∨ m = .eraseNoop) := by
  refine ⟨?_, ?_, ?_, ?_⟩
  · intro d b off size hbad hbeh hpre
    rw [lfs_testbd_read, if_neg (by simp [hpre]), if_pos ⟨hbad, hbeh⟩]
  · intro d b off size; exact read_snd d b off size
  · intro d b off size; rw [read_snd]
  · intro m; cases m <;> simp

/-- C6 witness: a read of the bad block of a concrete read-error device
fails with `corruptData`. -/
theorem C6_read_error_determinism_witness :
    (lfs_testbd_read (devBad .readError) 0 0 16).1 = .error .corruptData :=
  C6_read_error_determinism.1 (devBad .readError) 0 0 16 (by decide) rfl
    (by decide)

/-- C7: with erase-value emulation enabled, a successful non-noop erase of
a good block followed by a successful program of a region yields, on any
subsequent (validly aligned) read of the block, exactly the programmed
bytes at the programmed positions and the configured fill byte at every
position not programmed since the erase. -/
theorem C7_erase_prog_read (d : Device) (b off roff rsize : Nat)
    (buf : List Nat)
    (hval : d.cfg.erase_value ≠ -1)
    (hb : b < d.cfg.erase_count)
    (hgood2 : d.cfg.erase_cycles = 0 ∨ d.wear b + 1 < d.cfg.erase_cycles)
    (hpc : d.power_cycles = 0)
    (hprog : progPre d b off buf.length)
    (hread : readPre d b roff rsize) :
    ∃ d1 d2, lfs_testbd_erase d b = .ret .ok d1 ∧
      lfs_testbd_prog d1 b off buf = .ret .ok d2 ∧
      (lfs_testbd_read d2 b roff rsize).1 =
        .ok ((List.range rsize).map fun i =>
          if off ≤ roff + i ∧ roff + i < off + buf.length then
            buf.getD (roff + i - off) 0
          else d.cfg.erase_value.toNat) := by
  have hgood : ¬ isBad d b := by
    rintro ⟨h1, h2⟩
    rcases hgood2 with h | h
    · exact h1 h
    · omega
  have h1 : lfs_testbd_erase d b = .ret .ok (eraseWrite d b) := by
    rw [erase_step d b hb hgood, powerStep_zero]
    rw [eraseWrite_power]; exact hpc
  have hgood1 : ¬ isBad (eraseWrite d b) b := by
    rintro ⟨g1, g2⟩
    rw [eraseWrite_cfg] at g1 g2
    rw [eraseWrite_wear_self] at g2
    rcases hgood2 with h | h
    · exact g1 h
    · omega
  have hpre1 : progPre (eraseWrite d b) b off buf.length := hprog
  have h2 : lfs_testbd_prog (eraseWrite d b) b off buf =
      .ret .ok (progWrite (eraseWrite d b) b off buf) := by
    rw [prog_step _ b off buf hpre1 hgood1, powerStep_zero]
    rw [progWrite_power, eraseWrite_power]; exact hpc
  have hpre2 : readPre (progWrite (eraseWrite d b) b off buf) b roff rsize :=
    hread
  have hnotread :
      ¬ (isBad (progWrite (eraseWrite d b) b off buf) b ∧
        (progWrite (eraseWrite d b) b off buf).cfg.badblock_behavior =
          .readError) := by
    rintro ⟨hb2, -⟩
    exact hgood1 hb2
  have h3 : (lfs_testbd_read (progWrite (eraseWrite d b) b off buf)
      b roff rsize).1 =
      .ok ((List.range rsize).map fun i =>
        (progWrite (eraseWrite d b) b off buf).disk b (roff + i)) := by
    rw [lfs_testbd_read, if_neg (by simp [hpre2]), if_neg hnotread]
  refine ⟨eraseWrite d b, progWrite (eraseWrite d b) b off buf, h1, h2, ?_⟩
  rw [h3]
  congr 1
  apply List.map_congr_left
  intro i hi
  by_cases hcond : off ≤ roff + i ∧ roff + i < off + buf.length
  · simp [progWrite, hcond]
  · simp [progWrite, hcond, eraseWrite, hval]

/-- C7 witness: concrete erase, 16-byte program at offset 0 and 16-byte
read at offset 0 of block 0 on a good device with fill byte 255. -/
theorem C7_erase_prog_read_witness :
    ∃ d1 d2, lfs_testbd_erase devGood 0 = .ret .ok d1 ∧
      lfs_testbd_prog d1 0 0 (List.replicate 16 7) = .ret .ok d2 ∧
      (lfs_testbd_read d2 0 0 16).1 =
        .ok ((List.range 16).map fun i =>
          if 0 ≤ 0 + i ∧ 0 + i < 0 + (List.replicate 16 7).length then
            (List.replicate 16 7).getD (0 + i - 0) 0
          else devGood.cfg.erase_value.toNat) :=
  C7_erase_prog_read devGood 0 0 0 16 (List.replicate 16 7) (by decide)
    (by decide) (by decide) rfl (by decide) (by decide)

/-- C8: `set_wear(b, erase_cycles)` succeeds on a valid block and makes it
bad immediately, after which a program or erase on `b` produces exactly
the outcome the configured `badblock_behavior` dictates; the result status
of a program or erase on a bad block is identical for every device with
the same configuration whose block `b` is bad, however its wear was
reached; `set_wear(b, 0)` moves the block back to good immediately; and
`set_wear` on an out-of-range block index fails with an invalid-argument
condition. -/
theorem C8_setwear_path_independence (d : Device) (b off : Nat)
    (buf : List Nat)
    (hb : b < d.cfg.erase_count)
    (hc : d.cfg.erase_cycles ≠ 0)
    (hc32 : d.cfg.erase_cycles < 2 ^ 32)
    (hpre : progPre d b off buf.length)
    (hpc : d.power_cycles = 0) :
    ∃ d1, lfs_testbd_setwear d b d.cfg.erase_cycles = (.ok, d1) ∧
      isBad d1 b ∧
      (d.cfg.badblock_behavior = .progError →
        lfs_testbd_prog d1 b off buf = .ret (.err .ioError) d1) ∧
      (d.cfg.badblock_behavior = .progNoop →
        lfs_testbd_prog d1 b off buf = .ret .ok d1) ∧
      (d.cfg.badblock_behavior = .eraseError →
        lfs_testbd_erase d1 b = .ret (.err .ioError) d1) ∧
      (d.cfg.badblock_behavior = .eraseNoop →
        lfs_testbd_erase d1 b = .ret .ok d1) ∧
      (∀ d2, d2.cfg = d.cfg → isBad d2 b → d2.power_cycles = 0 →
        (lfs_testbd_prog d2 b off buf).status =
          (lfs_testbd_prog d1 b off buf).status ∧
        (lfs_testbd_erase d2 b).status = (lfs_testbd_erase d1 b).status) ∧
      (∃ d0, lfs_testbd_setwear d1 b 0 = (.ok, d0) ∧ ¬ isBad d0 b) ∧
      (∀ b2 v, d.cfg.erase_count ≤ b2 →
        lfs_testbd_setwear d b2 v = (.err .invalidArg, d)) := by
  have hcfgW : ((lfs_testbd_setwear d b d.cfg.erase_cycles).2).cfg = d.cfg :=
    setwear_cfg d b _
  have hwW : ((lfs_testbd_setwear d b d.cfg.erase_cycles).2).wear b =
      d.cfg.erase_cycles := by
    rw [setwear_wear_self d b _ hb]
    exact Nat.mod_eq_of_lt hc32
  have hbadW : isBad ((lfs_testbd_setwear d b d.cfg.erase_cycles).2) b :=
    ⟨by rw [hcfgW]; exact hc, by rw [hcfgW, hwW]⟩
  have hpreW : progPre ((lfs_testbd_setwear d b d.cfg.erase_cycles).2)
      b off buf.length := by
    unfold progPre at hpre ⊢
    rw [hcfgW]; exact hpre
  have hbW : b < ((lfs_testbd_setwear d b d.cfg.erase_cycles).2).cfg.erase_count := by
    rw [hcfgW]; exact hb
  have hpcW : ((lfs_testbd_setwear d b d.cfg.erase_cycles).2).power_cycles = 0 := by
    rw [setwear_power]; exact hpc
  refine ⟨(lfs_testbd_setwear d b d.cfg.erase_cycles).2, ?_, hbadW,
    ?_, ?_, ?_, ?_, ?_, ?_, ?_⟩
  · rw [setwear_ok d b _ hb]
  · intro hbeh
    have hbeh1 : ((lfs_testbd_setwear d b d.cfg.erase_cycles).2).cfg.badblock_behavior =
        .progError := by rw [hcfgW]; exact hbeh
    simp [lfs_testbd_prog, hpreW, hbadW, hbeh1]
  · intro hbeh
    have hbeh1 : ((lfs_testbd_setwear d b d.cfg.erase_cycles).2).cfg.badblock_behavior =
        .progNoop := by rw [hcfgW]; exact hbeh
    simp [lfs_testbd_prog, hpreW, hbadW, hbeh1]
  · intro hbeh
    have hbeh1 : ((lfs_testbd_setwear d b d.cfg.erase_cycles).2).cfg.badblock_behavior =
        .eraseError := by rw [hcfgW]; exact hbeh
    simp [lfs_testbd_erase, hbW, hbadW, hbeh1]
  · intro hbeh
    have hbeh1 : ((lfs_testbd_setwear d b d.cfg.erase_cycles).2).cfg.badblock_behavior =
        .eraseNoop := by rw [hcfgW]; exact hbeh
    simp [lfs_testbd_erase, hbW, hbadW, hbeh1]
  · intro d2 hcfg2 hbad2 hpc2
    have hpre2 : progPre d2 b off buf.length := by
      unfold progPre at hpre ⊢
      rw [hcfg2]; exact hpre
    have hb2 : b < d2.cfg.erase_count := hpre2.1
    constructor
    · rw [prog_status_of_bad d2 b off buf hpre2 hbad2 hpc2,
        prog_status_of_bad _ b off buf hpreW hbadW hpcW, hcfg2, hcfgW]
    · rw [erase_status_of_bad d2 b hb2 hbad2 hpc2,
        erase_status_of_bad _ b hbW hbadW hpcW, hcfg2, hcfgW]
  · refine ⟨(lfs_testbd_setwear ((lfs_testbd_setwear d b d.cfg.erase_cycles).2)
      b 0).2, ?_, ?_⟩
    · rw [setwear_ok _ b 0 hbW]
    · rintro ⟨g1, g2⟩
      rw [setwear_cfg, hcfgW] at g1 g2
      rw [setwear_wear_self _ b 0 hbW] at g2
      have : mod32 0 = 0 := rfl
      omega
  · intro b2 v h
    simp [lfs_testbd_setwear, Nat.not_lt.2 h]

/-- C8 witness: on a concrete good device with threshold 5 and prog-error
behavior, fast-forwarding block 0 to the threshold with `set_wear`
immediately reproduces the configured behavior. -/
theorem C8_setwear_path_independence_witness :
    ∃ d1, lfs_testbd_setwear devGood 0 devGood.cfg.erase_cycles =
        (.ok, d1) ∧
      isBad d1 0 ∧
      (devGood.cfg.badblock_behavior = .progError →
        lfs_testbd_prog d1 0 0 (List.replicate 16 7) =
          .ret (.err .ioError) d1) ∧
      (devGood.cfg.badblock_behavior = .progNoop →
        lfs_testbd_prog d1 0 0 (List.replicate 16 7) = .ret .ok d1) ∧
      (devGood.cfg.badblock_behavior = .eraseError →
        lfs_testbd_erase d1 0 = .ret (.err .ioError) d1) ∧
      (devGood.cfg.badblock_behavior = .eraseNoop →
        lfs_testbd_erase d1 0 = .ret .ok d1) ∧
      (∀ d2, d2.cfg = devGood.cfg → isBad d2 0 → d2.power_cycles = 0 →
        (lfs_testbd_prog d2 0 0 (List.replicate 16 7)).status =
          (lfs_testbd_prog d1 0 0 (List.replicate 16 7)).status ∧
        (lfs_testbd_erase d2 0).status = (lfs_testbd_erase d1 0).status) ∧
      (∃ d0, lfs_testbd_setwear d1 0 0 = (.ok, d0) ∧ ¬ isBad d0 0) ∧
      (∀ b2 v, devGood.cfg.erase_count ≤ b2 →
        lfs_testbd_setwear devGood b2 v = (.err .invalidArg, devGood)) :=
  C8_setwear_path_independence devGood 0 0 (List.replicate 16 7)
    (by decide) (by decide) (by norm_num [devGood]) (by decide) rfl

/-- C9: caller contract violations are surfaced immediately as errors and
the operation is not performed — a misaligned or out-of-range read or
program fails with an invalid-argument condition leaving the device
unchanged, an erase or `set_wear` on a block index at or beyond
`erase_count` fails with an invalid-argument condition leaving the device
unchanged, and `get_wear` signals an out-of-range block index with a
negative sentinel value. -/
theorem C9_contract_violations (d : Device) (b off size v : Nat)
    (buf : List Nat) :
    (¬ readPre d b off size →
      lfs_testbd_read d b off size = (.error .invalidArg, d)) ∧
    (¬ progPre d b off buf.length →
      lfs_testbd_prog d b off buf = .ret (.err .invalidArg) d) ∧
    (d.cfg.erase_count ≤ b →
      lfs_testbd_erase d b = .ret (.err .invalidArg) d) ∧
    (d.cfg.erase_count ≤ b →
      lfs_testbd_setwear d b v = (.err .invalidArg, d)) ∧
    (d.cfg.erase_count ≤ b → lfs_testbd_getwear d b < 0) := by
  refine ⟨?_, ?_, ?_, ?_, ?_⟩
  · intro h
    rw [lfs_testbd_read, if_pos h]
  · intro h
    rw [lfs_testbd_prog, if_pos h]
  · intro h
    rw [lfs_testbd_erase, if_pos (by omega)]
  · intro h
    rw [lfs_testbd_setwear, if_neg (Nat.not_lt.2 h)]
  · intro h
    rw [lfs_testbd_getwear, if_neg (Nat.not_lt.2 h)]
    norm_num [invalSentinel]

/-- C9 witness: a read at the misaligned offset 3 fails with an
invalid-argument condition and leaves the device unchanged. -/
theorem C9_contract_violations_witness :
    lfs_testbd_read devGood 0 3 16 = (.error .invalidArg, devGood) :=
  (C9_contract_violations devGood 0 3 16 0 []).1 (by decide)

/-- C10: wear is stored as an unsigned 32-bit counter but `get_wear`
returns it through the signed 32-bit type `lfs_testbd_swear_t`: for a
valid block, `set_wear(b, v)` with `2^31 <= v < 2^32` followed by
`get_wear(b)` returns the negative value `v - 2^32` (the unsigned wear
reinterpreted as signed), and for some such `v` the returned value
coincides exactly with the negative sentinel that signals an out-of-range
block index. -/
theorem C10_signed_wear_reinterpretation (d : Device) (b v : Nat)
    (hb : b < d.cfg.erase_count) (hv1 : 2 ^ 31 ≤ v) (hv2 : v < 2 ^ 32) :
    lfs_testbd_getwear ((lfs_testbd_setwear d b v).2) b =
      (v : Int) - 2 ^ 32 ∧
    lfs_testbd_getwear ((lfs_testbd_setwear d b v).2) b < 0 ∧
    ∃ w, 2 ^ 31 ≤ w ∧ w < 2 ^ 32 ∧ ∀ d2 b2, b2 < d2.cfg.erase_count →
      lfs_testbd_getwear ((lfs_testbd_setwear d2 b2 w).2) b2 =
        lfs_testbd_getwear d2 d2.cfg.erase_count := by
  have hmv : mod32 v = v := Nat.mod_eq_of_lt hv2
  have hmain : lfs_testbd_getwear ((lfs_testbd_setwear d b v).2) b =
      (v : Int) - 2 ^ 32 := by
    rw [lfs_testbd_getwear, if_pos (by rw [setwear_cfg]; exact hb),
      setwear_wear_self d b v hb, toInt32, hmv, hmv,
      if_neg (by omega)]
  refine ⟨hmain, by rw [hmain]; omega, 2 ^ 32 - 22, by norm_num,
    by norm_num, ?_⟩
  intro d2 b2 hb2
  have hmw : mod32 (2 ^ 32 - 22) = 2 ^ 32 - 22 :=
    Nat.mod_eq_of_lt (by norm_num)
  rw [lfs_testbd_getwear, if_pos (by rw [setwear_cfg]; exact hb2),
    setwear_wear_self d2 b2 _ hb2, toInt32, hmw, hmw,
    if_neg (by norm_num), lfs_testbd_getwear, if_neg (lt_irrefl _)]
  rw [Nat.cast_sub (by norm_num)]
  norm_num [invalSentinel]

/-- C10 witness: setting wear `2^31` on block 0 of a concrete device makes
`get_wear` return the negative value `2^31 - 2^32 = -2^31`. -/
theorem C10_signed_wear_reinterpretation_witness :
    lfs_testbd_getwear ((lfs_testbd_setwear devGood 0 (2 ^ 31)).2) 0 =
      ((2 ^ 31 : Nat) : Int) - 2 ^ 32 ∧
    lfs_testbd_getwear ((lfs_testbd_setwear devGood 0 (2 ^ 31)).2) 0 < 0 ∧
    ∃ w, 2 ^ 31 ≤ w ∧ w < 2 ^ 32 ∧ ∀ d2 b2, b2 < d2.cfg.erase_count →
      lfs_testbd_getwear ((lfs_testbd_setwear d2 b2 w).2) b2 =
        lfs_testbd_getwear d2 d2.cfg.erase_count :=
  C10_signed_wear_reinterpretation devGood 0 (2 ^ 31) (by decide)
    (by norm_num) (by norm_num)

end Testbd
